import Mathlib

/-!
Verification of the solar-panel counting program (`src/junior/python/main.py`).

The program's only logic is the pure function `calculate_panels`, which maps
four integers (panel width, panel height, roof width, roof height) to the
number of whole panels that fit on the roof under two axis-aligned tiling
strategies, each with one leftover-strip correction pass.

Python integers are unbounded, so the embedding uses `Int`.  Python's floor
division `//` is `Int.fdiv` and Python's `%` is `Int.fmod` (both round toward
negative infinity, matching Python semantics exactly).  `sorted((u, v))` on a
pair returns `(min u v, max u v)`.
-/

namespace PanelCounter

/-- Case 1 block of `calculate_panels` (main.py lines 18-23): fill side x along
side a; `case1 = (x // a) * (y // b)`, then if `left1 = x - (x // a) * a ≥ b`,
add `(y // a) * (left1 // b)`. -/
def case1 (x y a b : Int) : Int :=
  let c := Int.fdiv x a * Int.fdiv y b
  let left1 := x - Int.fdiv x a * a
  if left1 ≥ b then c + Int.fdiv y a * Int.fdiv left1 b else c

/-- Case 2 block of `calculate_panels` (main.py lines 25-30): fill side x along
side b; `case2 = (x // b) * (y // a)`, then if `left2 = y - (y // a) * a ≥ b`,
add `(x // a) * (left2 // b)`. -/
def case2 (x y a b : Int) : Int :=
  let c := Int.fdiv x b * Int.fdiv y a
  let left2 := y - Int.fdiv y a * a
  if left2 ≥ b then c + Int.fdiv x a * Int.fdiv left2 b else c

/-- Embedding of `calculate_panels` (main.py lines 5-33).  The roof pair is
sorted to `(y, x)` with `x ≥ y`, the panel pair to `(b, a)` with `a ≥ b`; if
`min(x, y, a, b) ≤ 0` the function returns 0; otherwise it returns
`max(case1, case2)`. -/
def calculate_panels (panel_width panel_height roof_width roof_height : Int) :
    Int :=
  let y := min roof_width roof_height
  let x := max roof_width roof_height
  let b := min panel_width panel_height
  let a := max panel_width panel_height
  if min x (min y (min a b)) ≤ 0 then 0
  else max (case1 x y a b) (case2 x y a b)

/-- Case 1 as the specification words it: primary grid `(x div a) * (y div b)`;
the leftover `x - (x div a) * a`, when `≥ b`, contributes a rotated pass
`(y div a) * (leftover div b)`.  Written from the spec, to be compared with
`case1`. -/
def case1Spec (x y a b : Int) : Int :=
  let leftover := x - Int.fdiv x a * a
  if leftover ≥ b then
    Int.fdiv x a * Int.fdiv y b + Int.fdiv y a * Int.fdiv leftover b
  else Int.fdiv x a * Int.fdiv y b

/-- Case 2 as the specification words it: primary grid `(x div b) * (y div a)`;
when the y leftover `y - (y div a) * a` is `≥ b`, add
`(x div a) * ((y mod a) div b)`.  Written from the spec, to be compared with
`case2`. -/
def case2Spec (x y a b : Int) : Int :=
  if y - Int.fdiv y a * a ≥ b then
    Int.fdiv x b * Int.fdiv y a + Int.fdiv x a * Int.fdiv (Int.fmod y a) b
  else Int.fdiv x b * Int.fdiv y a

/-- The guard `min x (min y (min a b)) ≤ 0` is false when all four inputs are
positive. -/
lemma guard_false {pw ph rw rh : Int} (hpw : 0 < pw) (hph : 0 < ph)
    (hrw : 0 < rw) (hrh : 0 < rh) :
    ¬ min (max rw rh) (min (min rw rh) (min (max pw ph) (min pw ph))) ≤ 0 := by
  push_neg
  simp only [lt_min_iff, lt_max_iff, lt_min_iff]
  exact ⟨Or.inl hrw, ⟨hrw, hrh⟩, Or.inl hpw, hpw, hph⟩

/-- On positive inputs `calculate_panels` reduces to the max of the two case
blocks of the normalized dimensions. -/
lemma calculate_panels_pos {pw ph rw rh : Int} (hpw : 0 < pw) (hph : 0 < ph)
    (hrw : 0 < rw) (hrh : 0 < rh) :
    calculate_panels pw ph rw rh =
      max (case1 (max rw rh) (min rw rh) (max pw ph) (min pw ph))
        (case2 (max rw rh) (min rw rh) (max pw ph) (min pw ph)) := by
  unfold calculate_panels
  simp only [guard_false hpw hph hrw hrh, if_false]

/-- C1: for positive inputs, with the roof normalized to `(x, y)`, `x ≥ y`, and
the panel to `(a, b)`, `a ≥ b`, `calculate_panels` computes Case 1 exactly as
the spec's formula `case1Spec` (primary grid `(x div a) * (y div b)` plus, when
the leftover `x - (x div a) * a` is `≥ b`, the rotated pass
`(y div a) * (leftover div b)`), the result being the max of that and the Case
2 block. -/
theorem c1_case1_formula (pw ph rw rh : Int) (hpw : 0 < pw) (hph : 0 < ph)
    (hrw : 0 < rw) (hrh : 0 < rh) :
    calculate_panels pw ph rw rh =
      max (case1Spec (max rw rh) (min rw rh) (max pw ph) (min pw ph))
        (case2 (max rw rh) (min rw rh) (max pw ph) (min pw ph)) := by
  rw [calculate_panels_pos hpw hph hrw hrh]
  rfl

/-- Witness for C1 at the concrete input (3, 1, 5, 5). -/
theorem c1_case1_formula_witness :
    calculate_panels 3 1 5 5 =
      max (case1Spec (max 5 5) (min 5 5) (max 3 1) (min 3 1))
        (case2 (max 5 5) (min 5 5) (max 3 1) (min 3 1)) :=
  c1_case1_formula 3 1 5 5 (by decide) (by decide) (by decide) (by decide)

/-- The code's `left2 = y - (y // a) * a` is exactly `y mod a` in Python
(floor-mod), so the Case 2 block equals the spec's wording of it. -/
lemma case2_eq_spec (x y a b : Int) : case2 x y a b = case2Spec x y a b := by
  unfold case2 case2Spec
  have h : Int.fmod y a = y - Int.fdiv y a * a := by
    have h0 := Int.fdiv_add_fmod y a
    linarith [h0, mul_comm a (Int.fdiv y a)]
  rw [h]

/-- C2: for positive inputs, with the roof normalized to `(x, y)`, `x ≥ y`, and
the panel to `(a, b)`, `a ≥ b`, `calculate_panels` computes Case 2 exactly as
the spec's formula `case2Spec` (primary grid `(x div b) * (y div a)` plus, when
`y - (y div a) * a ≥ b`, the fill `(x div a) * ((y mod a) div b)`), and the
returned value is `max(case1, case2)`. -/
theorem c2_case2_formula (pw ph rw rh : Int) (hpw : 0 < pw) (hph : 0 < ph)
    (hrw : 0 < rw) (hrh : 0 < rh) :
    calculate_panels pw ph rw rh =
      max (case1 (max rw rh) (min rw rh) (max pw ph) (min pw ph))
        (case2Spec (max rw rh) (min rw rh) (max pw ph) (min pw ph)) := by
  rw [calculate_panels_pos hpw hph hrw hrh, case2_eq_spec]

/-- Witness for C2 at the concrete input (3, 1, 5, 5). -/
theorem c2_case2_formula_witness :
    calculate_panels 3 1 5 5 =
      max (case1 (max 5 5) (min 5 5) (max 3 1) (min 3 1))
        (case2Spec (max 5 5) (min 5 5) (max 3 1) (min 3 1)) :=
  c2_case2_formula 3 1 5 5 (by decide) (by decide) (by decide) (by decide)

/-- C3: if any of the four integer inputs is `≤ 0`, `calculate_panels` returns
0 (the guard fires before any division; the embedding is a total function, so
no exception can be raised). -/
theorem c3_degenerate_zero (pw ph rw rh : Int)
    (h : pw ≤ 0 ∨ ph ≤ 0 ∨ rw ≤ 0 ∨ rh ≤ 0) :
    calculate_panels pw ph rw rh = 0 := by
  unfold calculate_panels
  have hg : min (max rw rh) (min (min rw rh) (min (max pw ph) (min pw ph))) ≤ 0 := by
    rcases h with h | h | h | h
    · calc min (max rw rh) (min (min rw rh) (min (max pw ph) (min pw ph)))
          ≤ min (max pw ph) (min pw ph) := le_trans (min_le_right _ _) (min_le_right _ _)
        _ ≤ min pw ph := min_le_right _ _
        _ ≤ pw := min_le_left _ _
        _ ≤ 0 := h
    · calc min (max rw rh) (min (min rw rh) (min (max pw ph) (min pw ph)))
          ≤ min (max pw ph) (min pw ph) := le_trans (min_le_right _ _) (min_le_right _ _)
        _ ≤ min pw ph := min_le_right _ _
        _ ≤ ph := min_le_right _ _
        _ ≤ 0 := h
    · calc min (max rw rh) (min (min rw rh) (min (max pw ph) (min pw ph)))
          ≤ min rw rh := le_trans (min_le_right _ _) (min_le_left _ _)
        _ ≤ rw := min_le_left _ _
        _ ≤ 0 := h
    · calc min (max rw rh) (min (min rw rh) (min (max pw ph) (min pw ph)))
          ≤ min rw rh := le_trans (min_le_right _ _) (min_le_left _ _)
        _ ≤ rh := min_le_right _ _
        _ ≤ 0 := h
  simp only [hg, if_true]

/-- Witness for C3 at the spec's example `count_panels(2, 1, 0, 5) = 0`. -/
theorem c3_degenerate_zero_witness : calculate_panels 2 1 0 5 = 0 :=
  c3_degenerate_zero 2 1 0 5 (Or.inr (Or.inr (Or.inl (by decide))))

/-- C4: swapping the two panel dimensions, or the two roof dimensions, never
changes the result, because the function first sorts each pair. -/
theorem c4_symmetry (a b x y : Int) :
    calculate_panels a b x y = calculate_panels b a x y ∧
    calculate_panels a b x y = calculate_panels a b y x := by
  constructor
  · unfold calculate_panels
    rw [min_comm b a, max_comm b a]
  · unfold calculate_panels
    rw [min_comm y x, max_comm y x]

/-- C6: the spec's leftover-strip example: panel (3, 1) on roof (5, 5) gives 7
panels. -/
theorem c6_example_7 : calculate_panels 3 1 5 5 = 7 := by decide

/-- C7: `calculate_panels` is deterministic: any two calls on equal inputs
return equal values.  In the shallow embedding the function is a total pure
function of its four arguments, which also captures that it neither reads nor
writes any state outside the call. -/
theorem c7_deterministic (pw ph rw rh pw2 ph2 rw2 rh2 : Int)
    (h1 : pw = pw2) (h2 : ph = ph2) (h3 : rw = rw2) (h4 : rh = rh2) :
    calculate_panels pw ph rw rh = calculate_panels pw2 ph2 rw2 rh2 := by
  rw [h1, h2, h3, h4]

/-- Witness for C7 at the concrete input (3, 1, 5, 5). -/
theorem c7_deterministic_witness :
    calculate_panels 3 1 5 5 = calculate_panels 3 1 5 5 :=
  c7_deterministic 3 1 5 5 3 1 5 5 rfl rfl rfl rfl

/-- Floor division of nonnegative integers is nonnegative. -/
lemma fdiv_nonneg_of_nonneg {u v : Int} (hu : 0 ≤ u) (hv : 0 ≤ v) :
    0 ≤ Int.fdiv u v := by
  rw [Int.fdiv_eq_ediv u hv]
  exact Int.ediv_nonneg hu hv

/-- The leftover `u - (u // v) * v` is nonnegative for a positive divisor. -/
lemma sub_fdiv_mul_nonneg {u : Int} (hu : 0 < u) (v : Int) :
    0 ≤ v - Int.fdiv v u * u := by
  rw [Int.fdiv_eq_ediv v hu.le]
  have h1 := Int.emod_nonneg v (ne_of_gt hu)
  have h2 := Int.ediv_add_emod v u
  have h3 := mul_comm u (v / u)
  linarith

/-- The Case 1 block is at least its primary grid term. -/
lemma case1_ge_primary {x y a b : Int} (_hx : 0 ≤ x) (hy : 0 ≤ y) (ha : 0 < a)
    (hb : 0 < b) :
    Int.fdiv x a * Int.fdiv y b ≤ case1 x y a b := by
  simp only [case1]
  split_ifs with h
  · have h1 : 0 ≤ Int.fdiv y a := fdiv_nonneg_of_nonneg hy ha.le
    have h2 : 0 ≤ Int.fdiv (x - Int.fdiv x a * a) b :=
      fdiv_nonneg_of_nonneg (le_trans hb.le h) hb.le
    linarith [mul_nonneg h1 h2]
  · exact le_refl _

/-- The Case 2 block is at least its primary grid term. -/
lemma case2_ge_primary {x y a b : Int} (hx : 0 ≤ x) (ha : 0 < a) (hb : 0 < b) :
    Int.fdiv x b * Int.fdiv y a ≤ case2 x y a b := by
  simp only [case2]
  split_ifs with h
  · have h1 : 0 ≤ Int.fdiv x a := fdiv_nonneg_of_nonneg hx ha.le
    have h2 : 0 ≤ Int.fdiv (y - Int.fdiv y a * a) b :=
      fdiv_nonneg_of_nonneg (le_trans hb.le h) hb.le
    linarith [mul_nonneg h1 h2]
  · exact le_refl _

/-- The Case 1 block is nonnegative on positive normalized dimensions. -/
lemma case1_nonneg {x y a b : Int} (hx : 0 ≤ x) (hy : 0 ≤ y) (ha : 0 < a)
    (hb : 0 < b) : 0 ≤ case1 x y a b :=
  le_trans
    (mul_nonneg (fdiv_nonneg_of_nonneg hx ha.le) (fdiv_nonneg_of_nonneg hy hb.le))
    (case1_ge_primary hx hy ha hb)

/-- C5: the returned value is always `≥ 0`, whatever the four integer inputs
are (in the degenerate branch it is literally 0, otherwise a max over sums of
products of nonnegative floor divisions). -/
theorem c5_result_nonneg (pw ph rw rh : Int) :
    0 ≤ calculate_panels pw ph rw rh := by
  simp only [calculate_panels]
  split_ifs with h
  · exact le_refl 0
  · push_neg at h
    have h1 := lt_min_iff.mp h
    have h2 := lt_min_iff.mp h1.2
    have h3 := lt_min_iff.mp h2.2
    exact le_trans (case1_nonneg h1.1.le h2.1.le h3.1 h3.2) (le_max_left _ _)

/-- Panels placed by the Case 1 block never exceed the roof area: the primary
grid covers at most `((x//a)*a) * y` and the rotated strip at most
`y * (x - (x//a)*a)`. -/
lemma case1_area {x y a b : Int} (hx : 0 < x) (hy : 0 < y) (ha : 0 < a)
    (hb : 0 < b) : case1 x y a b * (a * b) ≤ x * y := by
  simp only [case1]
  have f1 : Int.fdiv x a * a ≤ x := by linarith [sub_fdiv_mul_nonneg ha x]
  have f2 : Int.fdiv y b * b ≤ y := by linarith [sub_fdiv_mul_nonneg hb y]
  have f3 : Int.fdiv y a * a ≤ y := by linarith [sub_fdiv_mul_nonneg ha y]
  have f0 : 0 ≤ Int.fdiv x a * a :=
    mul_nonneg (fdiv_nonneg_of_nonneg hx.le ha.le) ha.le
  have f0b : 0 ≤ Int.fdiv y b * b :=
    mul_nonneg (fdiv_nonneg_of_nonneg hy.le hb.le) hb.le
  split_ifs with h
  · have hL : 0 ≤ x - Int.fdiv x a * a := le_trans hb.le h
    have f4 : Int.fdiv (x - Int.fdiv x a * a) b * b ≤ x - Int.fdiv x a * a := by
      linarith [sub_fdiv_mul_nonneg hb (x - Int.fdiv x a * a)]
    have f4n : 0 ≤ Int.fdiv (x - Int.fdiv x a * a) b * b :=
      mul_nonneg (fdiv_nonneg_of_nonneg hL hb.le) hb.le
    have t1 : Int.fdiv x a * a * (Int.fdiv y b * b) ≤ Int.fdiv x a * a * y :=
      mul_le_mul_of_nonneg_left f2 f0
    have t2 : Int.fdiv y a * a * (Int.fdiv (x - Int.fdiv x a * a) b * b) ≤
        y * (x - Int.fdiv x a * a) :=
      mul_le_mul f3 f4 f4n hy.le
    nlinarith [t1, t2]
  · have t1 : Int.fdiv x a * a * (Int.fdiv y b * b) ≤ x * y :=
      mul_le_mul f1 f2 f0b hx.le
    nlinarith [t1]

/-- Panels placed by the Case 2 block never exceed the roof area: the primary
grid covers at most `x * ((y//a)*a)` and the rotated strip at most
`x * (y - (y//a)*a)`. -/
lemma case2_area {x y a b : Int} (hx : 0 < x) (hy : 0 < y) (ha : 0 < a)
    (hb : 0 < b) : case2 x y a b * (a * b) ≤ x * y := by
  simp only [case2]
  have f1 : Int.fdiv x b * b ≤ x := by linarith [sub_fdiv_mul_nonneg hb x]
  have f3 : Int.fdiv y a * a ≤ y := by linarith [sub_fdiv_mul_nonneg ha y]
  have f5 : Int.fdiv x a * a ≤ x := by linarith [sub_fdiv_mul_nonneg ha x]
  have f3n : 0 ≤ Int.fdiv y a * a :=
    mul_nonneg (fdiv_nonneg_of_nonneg hy.le ha.le) ha.le
  split_ifs with h
  · have hL : 0 ≤ y - Int.fdiv y a * a := le_trans hb.le h
    have f4 : Int.fdiv (y - Int.fdiv y a * a) b * b ≤ y - Int.fdiv y a * a := by
      linarith [sub_fdiv_mul_nonneg hb (y - Int.fdiv y a * a)]
    have f4n : 0 ≤ Int.fdiv (y - Int.fdiv y a * a) b * b :=
      mul_nonneg (fdiv_nonneg_of_nonneg hL hb.le) hb.le
    have t1 : Int.fdiv x b * b * (Int.fdiv y a * a) ≤ x * (Int.fdiv y a * a) :=
      mul_le_mul_of_nonneg_right f1 f3n
    have t2 : Int.fdiv x a * a * (Int.fdiv (y - Int.fdiv y a * a) b * b) ≤
        x * (y - Int.fdiv y a * a) :=
      mul_le_mul f5 f4 f4n hx.le
    nlinarith [t1, t2]
  · have t1 : Int.fdiv x b * b * (Int.fdiv y a * a) ≤ x * y :=
      mul_le_mul f1 f3 f3n hx.le
    nlinarith [t1]

/-- C8: the counted panels never cover more area than the roof:
`result * panel_width * panel_height ≤ roof_width * roof_height` for positive
inputs. -/
theorem c8_area_bound (pw ph rw rh : Int) (hpw : 0 < pw) (hph : 0 < ph)
    (hrw : 0 < rw) (hrh : 0 < rh) :
    calculate_panels pw ph rw rh * pw * ph ≤ rw * rh := by
  rw [calculate_panels_pos hpw hph hrw hrh]
  have hx : 0 < max rw rh := lt_max_iff.mpr (Or.inl hrw)
  have hy : 0 < min rw rh := lt_min_iff.mpr ⟨hrw, hrh⟩
  have ha : 0 < max pw ph := lt_max_iff.mpr (Or.inl hpw)
  have hb : 0 < min pw ph := lt_min_iff.mpr ⟨hpw, hph⟩
  have h1 := case1_area hx hy ha hb
  have h2 := case2_area hx hy ha hb
  have h3 : max (case1 (max rw rh) (min rw rh) (max pw ph) (min pw ph))
      (case2 (max rw rh) (min rw rh) (max pw ph) (min pw ph)) *
      (max pw ph * min pw ph) ≤ max rw rh * min rw rh := by
    rcases le_total (case1 (max rw rh) (min rw rh) (max pw ph) (min pw ph))
        (case2 (max rw rh) (min rw rh) (max pw ph) (min pw ph)) with hcc | hcc
    · rw [max_eq_right hcc]; exact h2
    · rw [max_eq_left hcc]; exact h1
  have hab : max pw ph * min pw ph = pw * ph := by
    rw [mul_comm]; exact min_mul_max pw ph
  have hxy : max rw rh * min rw rh = rw * rh := by
    rw [mul_comm]; exact min_mul_max rw rh
  calc max (case1 (max rw rh) (min rw rh) (max pw ph) (min pw ph))
        (case2 (max rw rh) (min rw rh) (max pw ph) (min pw ph)) * pw * ph
      = max (case1 (max rw rh) (min rw rh) (max pw ph) (min pw ph))
        (case2 (max rw rh) (min rw rh) (max pw ph) (min pw ph)) *
        (max pw ph * min pw ph) := by rw [mul_assoc, hab]
    _ ≤ max rw rh * min rw rh := h3
    _ = rw * rh := hxy

/-- Witness for C8 at the concrete input (3, 1, 5, 5). -/
theorem c8_area_bound_witness : calculate_panels 3 1 5 5 * 3 * 1 ≤ 5 * 5 :=
  c8_area_bound 3 1 5 5 (by decide) (by decide) (by decide) (by decide)

/-- C10: the result dominates both primary grids
`(x div a) * (y div b)` and `(x div b) * (y div a)` of the normalized
dimensions, since the leftover passes only ever add. -/
theorem c10_grid_lower_bound (pw ph rw rh : Int) (hpw : 0 < pw) (hph : 0 < ph)
    (hrw : 0 < rw) (hrh : 0 < rh) :
    Int.fdiv (max rw rh) (max pw ph) * Int.fdiv (min rw rh) (min pw ph) ≤
      calculate_panels pw ph rw rh ∧
    Int.fdiv (max rw rh) (min pw ph) * Int.fdiv (min rw rh) (max pw ph) ≤
      calculate_panels pw ph rw rh := by
  rw [calculate_panels_pos hpw hph hrw hrh]
  have hx : 0 < max rw rh := lt_max_iff.mpr (Or.inl hrw)
  have hy : 0 < min rw rh := lt_min_iff.mpr ⟨hrw, hrh⟩
  have ha : 0 < max pw ph := lt_max_iff.mpr (Or.inl hpw)
  have hb : 0 < min pw ph := lt_min_iff.mpr ⟨hpw, hph⟩
  exact ⟨le_trans (case1_ge_primary hx.le hy.le ha hb) (le_max_left _ _),
    le_trans (case2_ge_primary hx.le ha hb) (le_max_right _ _)⟩

/-- Witness for C10 at the concrete input (3, 1, 5, 5). -/
theorem c10_grid_lower_bound_witness :
    Int.fdiv (max 5 5) (max 3 1) * Int.fdiv (min 5 5) (min 3 1) ≤
      calculate_panels 3 1 5 5 ∧
    Int.fdiv (max 5 5) (min 3 1) * Int.fdiv (min 5 5) (max 3 1) ≤
      calculate_panels 3 1 5 5 :=
  c10_grid_lower_bound 3 1 5 5 (by decide) (by decide) (by decide) (by decide)

/-- Floor division evaluates to zero when the nonnegative dividend is below
the divisor. -/
lemma fdiv_eq_zero_of_lt {u v : Int} (hu : 0 ≤ u) (huv : u < v) :
    Int.fdiv u v = 0 := by
  rw [Int.fdiv_eq_ediv u (le_trans hu huv.le)]
  exact Int.ediv_eq_zero_of_lt hu huv

/-- Floor division is at least one when the positive divisor fits into the
dividend. -/
lemma one_le_fdiv {u v : Int} (hv : 0 < v) (hvu : v ≤ u) :
    1 ≤ Int.fdiv u v := by
  rw [Int.fdiv_eq_ediv u hv.le, Int.le_ediv_iff_mul_le hv, one_mul]
  exact hvu

/-- When the panel fits (`a ≤ x` and `b ≤ y`), the Case 1 block places at
least one panel. -/
lemma one_le_case1 {x y a b : Int} (ha : 0 < a) (hb : 0 < b) (hax : a ≤ x)
    (hby : b ≤ y) : 1 ≤ case1 x y a b := by
  have h1 : 1 ≤ Int.fdiv x a := one_le_fdiv ha hax
  have h2 : 1 ≤ Int.fdiv y b := one_le_fdiv hb hby
  have h3 : (1 : Int) * 1 ≤ Int.fdiv x a * Int.fdiv y b :=
    mul_le_mul h1 h2 zero_le_one (le_trans zero_le_one h1)
  have h4 := case1_ge_primary (le_trans ha.le hax) (le_trans hb.le hby) ha hb
  linarith

/-- When the panel's long side exceeds even the roof's long side, the Case 1
block places nothing: both `x // a` and `y // a` are zero. -/
lemma case1_zero_of_wide {x y a b : Int} (hx : 0 ≤ x) (hy : 0 ≤ y)
    (hyx : y ≤ x) (hxa : x < a) : case1 x y a b = 0 := by
  have hq1 : Int.fdiv x a = 0 := fdiv_eq_zero_of_lt hx hxa
  have hq3 : Int.fdiv y a = 0 := fdiv_eq_zero_of_lt hy (lt_of_le_of_lt hyx hxa)
  simp only [case1, hq1, hq3, zero_mul, mul_zero, sub_zero, add_zero, ite_self]

/-- When the panel's long side exceeds even the roof's long side, the Case 2
block places nothing either. -/
lemma case2_zero_of_wide {x y a b : Int} (hx : 0 ≤ x) (hy : 0 ≤ y)
    (hyx : y ≤ x) (hxa : x < a) : case2 x y a b = 0 := by
  have hq1 : Int.fdiv x a = 0 := fdiv_eq_zero_of_lt hx hxa
  have hq3 : Int.fdiv y a = 0 := fdiv_eq_zero_of_lt hy (lt_of_le_of_lt hyx hxa)
  simp only [case2, hq1, hq3, zero_mul, mul_zero, sub_zero, add_zero, ite_self]

/-- When the panel's short side exceeds the roof's short side, the Case 1
block places nothing: `y // b` and `y // a` are zero. -/
lemma case1_zero_of_short {x y a b : Int} (hy : 0 ≤ y) (hyb : y < b)
    (hba : b ≤ a) : case1 x y a b = 0 := by
  have hq2 : Int.fdiv y b = 0 := fdiv_eq_zero_of_lt hy hyb
  have hq3 : Int.fdiv y a = 0 := fdiv_eq_zero_of_lt hy (lt_of_lt_of_le hyb hba)
  simp only [case1, hq2, hq3, zero_mul, mul_zero, add_zero, ite_self]

/-- When the panel's short side exceeds the roof's short side, the Case 2
block places nothing: `y // a` is zero and the leftover test `y ≥ b` fails. -/
lemma case2_zero_of_short {x y a b : Int} (hy : 0 ≤ y) (hyb : y < b)
    (hba : b ≤ a) : case2 x y a b = 0 := by
  have hq3 : Int.fdiv y a = 0 := fdiv_eq_zero_of_lt hy (lt_of_lt_of_le hyb hba)
  simp only [case2, hq3, mul_zero, zero_mul, sub_zero]
  rw [if_neg (not_le.mpr hyb)]

/-- C9: for positive inputs the result is `≥ 1` exactly when the panel fits
in the roof after normalization (`max pw ph ≤ max rw rh` and
`min pw ph ≤ min rw rh`); when it does not fit, the result is exactly 0. -/
theorem c9_fit_characterization (pw ph rw rh : Int) (hpw : 0 < pw)
    (hph : 0 < ph) (hrw : 0 < rw) (hrh : 0 < rh) :
    (1 ≤ calculate_panels pw ph rw rh ↔
      max pw ph ≤ max rw rh ∧ min pw ph ≤ min rw rh) ∧
    (¬ (max pw ph ≤ max rw rh ∧ min pw ph ≤ min rw rh) →
      calculate_panels pw ph rw rh = 0) := by
  have hx : 0 < max rw rh := lt_max_iff.mpr (Or.inl hrw)
  have hy : 0 < min rw rh := lt_min_iff.mpr ⟨hrw, hrh⟩
  have ha : 0 < max pw ph := lt_max_iff.mpr (Or.inl hpw)
  have hb : 0 < min pw ph := lt_min_iff.mpr ⟨hpw, hph⟩
  have hyx : min rw rh ≤ max rw rh := min_le_max
  have hba : min pw ph ≤ max pw ph := min_le_max
  have hzero : ¬ (max pw ph ≤ max rw rh ∧ min pw ph ≤ min rw rh) →
      calculate_panels pw ph rw rh = 0 := by
    intro hnot
    rw [calculate_panels_pos hpw hph hrw hrh]
    rcases not_and_or.mp hnot with hcase | hcase
    · push_neg at hcase
      rw [case1_zero_of_wide hx.le hy.le hyx hcase,
        case2_zero_of_wide hx.le hy.le hyx hcase]
      exact max_self 0
    · push_neg at hcase
      rw [case1_zero_of_short hy.le hcase hba,
        case2_zero_of_short hy.le hcase hba]
      exact max_self 0
  have hone : max pw ph ≤ max rw rh ∧ min pw ph ≤ min rw rh →
      1 ≤ calculate_panels pw ph rw rh := by
    intro hfit
    rw [calculate_panels_pos hpw hph hrw hrh]
    exact le_trans (one_le_case1 ha hb hfit.1 hfit.2) (le_max_left _ _)
  refine ⟨⟨fun hres => ?_, hone⟩, hzero⟩
  by_contra hnot
  rw [hzero hnot] at hres
  exact absurd hres (by norm_num)

/-- Witness for C9 at the concrete input (3, 1, 5, 5). -/
theorem c9_fit_characterization_witness :
    (1 ≤ calculate_panels 3 1 5 5 ↔
      max (3 : Int) 1 ≤ max 5 5 ∧ min (3 : Int) 1 ≤ min 5 5) ∧
    (¬ (max (3 : Int) 1 ≤ max 5 5 ∧ min (3 : Int) 1 ≤ min 5 5) →
      calculate_panels 3 1 5 5 = 0) :=
  c9_fit_characterization 3 1 5 5 (by decide) (by decide) (by decide)
    (by decide)

end PanelCounter
